import Mathlib

/-!
Verification development for the multijet jet-energy-correction (JEC) fit code.

The definitions below are a shallow embedding of the numerical core of the
repository:

* `JetCorrBase` (src/Fit/src/FitBase.cpp): parameter storage, `SetParams`,
  and the fixed-point inversion `UndoCorr`;
* `Multijet` (src/Fit/src/Multijet.cpp): the constructor computations
  (`binning`, `dimensionality`), `GetDim`, and the binning reconciliation
  `MapBinning` together with the inclusion-fraction semantics used by
  `ComputePtBal` / `ComputeMPF`;
* `L3Corr` (src/Analysis/MultijetFOM.cpp): functional forms of the
  correction, `SetType`, and the evaluation functions.

Machine integers of the source (`unsigned`, 32 bit) are modelled as natural
numbers reduced modulo 2^32 exactly where the source performs unsigned
arithmetic; `double` values are modelled as exact rationals (or reals where a
transcendental function is involved).  A function that can throw in C++ is
modelled with `Option` (`none` = an exception was thrown).
-/

namespace MultijetJEC

/-- Largest value of a 32-bit `unsigned`, the value of `unsigned(-1)` in the
source. -/
def UINT_MAX : ℕ := 4294967295

/-- Reduction modulo 2^32, modelling arithmetic on a 32-bit `unsigned`. -/
def u32 (n : ℕ) : ℕ := n % 4294967296

/-- Element of a list at a position, with a default for an out-of-range
index (C++ vector indexing in the embedded code is always in range; the
default only keeps the function total).  Stated as its own recursion so that
concrete instances evaluate by rewriting. -/
def elemD {α : Type} : List α → ℕ → α → α
  | [], _, d => d
  | a :: _, 0, _ => a
  | _ :: t, n + 1, d => elemD t n d

/-- Last element of a list, with a default for the empty list. -/
def lastD {α : Type} : List α → α → α
  | [], d => d
  | [a], _ => a
  | _ :: b :: t, d => lastD (b :: t) d

/-- Embedding of `struct FracBin` (src/Fit/include/Multijet.hpp via
Multijet.cpp): a source-bin index paired with an inclusion fraction. -/
structure FracBin where
  index : ℕ
  frac : ℚ
deriving DecidableEq, Repr

instance : Inhabited FracBin := ⟨⟨0, 0⟩⟩

/-- Embedding of the scroll loop of `Multijet::MapBinning`
(src/Fit/src/Multijet.cpp, line 316):
`while (curSrcBin < source.size() - 1 and source[curSrcBin + 1] < x) ++curSrcBin;`
with `curSrcBin` a 32-bit `unsigned`.  The loop is expressed with explicit
fuel; `source.length` steps are always enough because the condition forces
`cur < source.length - 1` before each increment. -/
def scroll (source : List ℚ) (x : ℚ) : ℕ → ℕ → ℕ
  | 0, cur => cur
  | fuel + 1, cur =>
      if cur < source.length - 1 ∧ elemD source (u32 (cur + 1)) 0 < x then
        scroll source x fuel (u32 (cur + 1))
      else
        cur

/-- Embedding of the first loop of `Multijet::MapBinning` (lines 313-336):
matches every edge of the target binning to a source bin index and a relative
position within that bin.  The state `cur` is the `unsigned curSrcBin`,
initialised to `unsigned(-1)` by the caller. -/
def matchEdges (source : List ℚ) : List ℚ → ℕ → List FracBin
  | [], _ => []
  | x :: rest, cur =>
      let cur2 := scroll source x source.length cur
      let relPos : ℚ :=
        if cur2 = UINT_MAX then 1
        else if cur2 = source.length - 1 then 0
        else
          let srcBinStart := elemD source cur2 0
          let srcBinWidth := elemD source (cur2 + 1) 0 - srcBinStart
          (x - srcBinStart) / srcBinWidth
      ⟨cur2, relPos⟩ :: matchEdges source rest cur2

/-- The snapping tolerance of `Multijet::MapBinning` (line 360). -/
def snapTolerance : ℚ := 1 / 10000000

/-- Embedding of the second loop of `Multijet::MapBinning` (lines 350-403):
turns the list of matched edges into the list of range boundaries.  The
accumulator `acc` carries the boundaries built so far (the last element is the
most recent opening boundary, as in the source, where the forced-zero check
reads `boundaries[boundaries.size() - 1]`).  The lookahead
`matchedEdges[i + 1]` is available as the head of `rest`. -/
def buildBoundaries : List FracBin → List FracBin → List FracBin
  | [], acc => acc
  | e :: rest, acc =>
      let srcBin0 := e.index
      let rel0 := e.frac
      let rel1 : ℚ := if rel0 > 1 - snapTolerance then 1 else rel0
      let p :=
        if rel1 < snapTolerance ∧ srcBin0 ≠ UINT_MAX then
          (u32 (srcBin0 + UINT_MAX), (1 : ℚ))
        else
          (srcBin0, rel1)
      let srcBin1 := p.1
      let rel2 := p.2
      let lastIdx := (lastD acc default).index
      let closingFrac : ℚ := if srcBin1 = lastIdx then 0 else rel2
      let q :=
        if rel2 = 1 then (u32 (srcBin1 + 1), (0 : ℚ)) else (srcBin1, rel2)
      let srcBin2 := q.1
      let rel3 := q.2
      let openingFrac : ℚ :=
        match rest with
        | next :: _ =>
            if next.index = srcBin2 then next.frac - rel3 else 1 - rel3
        | [] => 1 - rel3
      buildBoundaries rest (acc ++ [⟨srcBin1, closingFrac⟩, ⟨srcBin2, openingFrac⟩])

/-- Embedding of the final loop of `Multijet::MapBinning` (lines 416-428):
for `n` consecutive target bins starting at `t`, read the opening boundary
at position `2 t` and the closing boundary at position `2 t + 1` and shift
both indices by one (in unsigned arithmetic) to the ROOT numbering
convention, where the underflow bin has index 0. -/
def binMapFrom (bounds : List FracBin) : ℕ → ℕ → List (FracBin × FracBin)
  | _, 0 => []
  | t, n + 1 =>
      let s := elemD bounds (2 * t) default
      let e := elemD bounds (2 * t + 1) default
      (⟨u32 (s.index + 1), s.frac⟩, ⟨u32 (e.index + 1), e.frac⟩) ::
        binMapFrom bounds (t + 1) n

/-- Embedding of the boundary construction and final conversion of
`Multijet::MapBinning` (lines 339-430), after the range check has passed.
Produces the bin map as a list indexed by the target-bin number
(0 = underflow, 1..N = interior, N+1 = overflow); entry `t` is the pair
`(start, end)` of `FracBin` values, already shifted to the ROOT numbering
convention by the final `+ 1` (performed in unsigned arithmetic). -/
def mapBinningCore (source target : List ℚ) : List (FracBin × FracBin) :=
  let edges := matchEdges source target UINT_MAX
  let bounds0 := buildBoundaries edges [⟨UINT_MAX, 1⟩]
  let lastSrc := source.length - 1
  let lastFrac : ℚ := if lastSrc = (lastD bounds0 default).index then 0 else 1
  let bounds := bounds0 ++ [⟨lastSrc, lastFrac⟩]
  binMapFrom bounds 0 (target.length + 1)

/-- Embedding of `Multijet::MapBinning` (src/Fit/src/Multijet.cpp,
lines 290-431).  The out-of-range check of lines 295-302 is modelled by
returning `none` (the source throws `std::runtime_error` there); otherwise
the constructed bin map is returned. -/
def mapBinning (source target : List ℚ) : Option (List (FracBin × FracBin)) :=
  if elemD target 0 0 < elemD source 0 0 ∨
      elemD target (target.length - 1) 0 > elemD source (source.length - 1) 0 then
    none
  else
    some (mapBinningCore source target)

/-- Inclusion fraction of fine bin `k` in a bin-map range, following the
iteration of `Multijet::ComputePtBal` / `ComputeMPF`
(src/Fit/src/Multijet.cpp, lines 190, 220-225, 244, 274-279): the loop runs
inclusively from `start.index` to `end.index`; the first bin is weighted by
`start.frac`, the last by `end.frac` (the check for the first bin wins when
the range is a single bin), interior bins by 1. -/
def fracInRange (r : FracBin × FracBin) (k : ℕ) : ℚ :=
  if r.1.index ≤ k ∧ k ≤ r.2.index then
    (if k = r.1.index then r.1.frac
     else if k = r.2.index then r.2.frac
     else 1)
  else 0

/-- Sum of the inclusion fractions of fine bin `k` over `n` consecutive
bin-map entries starting at entry `t`. -/
def coverFrom (m : List (FracBin × FracBin)) (k : ℕ) : ℕ → ℕ → ℚ
  | _, 0 => 0
  | t, n + 1 => fracInRange (elemD m t default) k + coverFrom m k (t + 1) n

/-- Total inclusion fraction of fine bin `k` summed over the interior
coarse bins of a bin map (entries 1..N, excluding the underflow entry 0 and
the overflow entry N+1, which `Multijet::Eval` erases at lines 148-149). -/
def interiorCoverage (m : List (FracBin × FracBin)) (k : ℕ) : ℚ :=
  coverFrom m k 1 (m.length - 2)

/-! ### JetCorrBase (src/Fit/src/FitBase.cpp) -/

/-- Embedding of the state of `JetCorrBase`: the stored parameter vector.
The constructor `JetCorrBase(unsigned numParams)` value-initialises
`numParams` entries, i.e. fills the vector with zeros. -/
def jetCorrInit (numParams : ℕ) : List ℚ := List.replicate numParams 0

/-- Embedding of `JetCorrBase::GetNumParams` (FitBase.cpp, lines 13-16). -/
def getNumParams (parameters : List ℚ) : ℕ := parameters.length

/-- Embedding of `JetCorrBase::SetParams` (FitBase.cpp, lines 19-30).  The
source throws `std::runtime_error` when the size of the new vector differs
from the stored one (modelled as `none`; the throw happens before the
assignment, so the stored vector is unchanged in that case); otherwise the
stored vector becomes the new one. -/
def setParams (parameters newParams : List ℚ) : Option (List ℚ) :=
  if parameters.length ≠ newParams.length then none else some newParams

/-- Embedding of `std::abs` on `double`, modelled on exact rationals.  (It
agrees with the lattice absolute value `|x|`; see `ratAbs_eq_abs`.  The
explicit definition keeps the evaluation of the embedded code decidable.) -/
def ratAbs (x : ℚ) : ℚ := if x < 0 then -x else x

/-- Result of one run of the iteration loop in `JetCorrBase::UndoCorr`:
either the loop returned a value, or it threw the convergence error, or the
given fuel was exhausted with the loop still running. -/
inductive UndoOutcome
  | ok (u : ℚ)
  | convError
  | running
deriving DecidableEq, Repr

/-- Embedding of the `while (true)` loop of `JetCorrBase::UndoCorr`
(FitBase.cpp, lines 42-64), parametrised by the correction function `ev`
(the virtual `Eval`).  Faithful to the source: the iteration counter `iter`
is compared against `maxIter = 100` but is never incremented anywhere in the
loop body, so it is passed through unchanged.  `fuel` bounds the number of
modelled loop executions; `.running` means the loop had not finished after
`fuel` passes. -/
def undoCorrLoop (ev : ℚ → ℚ) (pt tolerance : ℚ) : ℕ → ℕ → ℚ → UndoOutcome
  | 0, _, _ => .running
  | fuel + 1, iter, ptUncorr =>
      let curCorr := ev ptUncorr
      let ptRecomp := ptUncorr * curCorr
      if ratAbs (ptRecomp / pt - 1) < tolerance then .ok ptUncorr
      else
        let ptUncorr2 := pt / curCorr
        if iter = 100 then .convError
        else undoCorrLoop ev pt tolerance fuel iter ptUncorr2

/-- Embedding of `JetCorrBase::UndoCorr` (FitBase.cpp, lines 33-67): the
iteration is seeded with `pt / ev pt` and the counter starts at 0. -/
def undoCorr (ev : ℚ → ℚ) (pt tolerance : ℚ) (fuel : ℕ) : UndoOutcome :=
  undoCorrLoop ev pt tolerance fuel 0 (pt / ev pt)

/-- Default relative tolerance of `JetCorrBase::UndoCorr`
(src/Fit/include/FitBase.hpp, line 42: `double tolerance = 1e-10`). -/
def undoCorrDefaultTolerance : ℚ := 1 / 10000000000

/-! ### Multijet constructor and GetDim (src/Fit/src/Multijet.cpp) -/

/-- A 1D histogram reduced to what the embedded code reads from it: the list
of its bin edges.  `GetNbinsX` is the number of bins, `GetBinLowEdge i`
returns the lower edge of bin `i` (1-based; bin `N + 1` is the overflow bin,
whose lower edge is the last edge). -/
structure Hist1 where
  edges : List ℚ
deriving DecidableEq, Repr

/-- Embedding of `TH1::GetNbinsX` for `Hist1`. -/
def Hist1.nbinsx (h : Hist1) : ℕ := h.edges.length - 1

/-- Embedding of `TH1::GetBinLowEdge` for `Hist1` (1-based bin numbering). -/
def Hist1.binLowEdge (h : Hist1) (i : ℕ) : ℚ := elemD h.edges (i - 1) 0

/-- Reading of `n` consecutive bin low edges starting from bin `i`,
modelling the loop `for (int i = 1; i <= GetNbinsX() + 1; ++i)` in the
`Multijet` constructor. -/
def readEdges (h : Hist1) : ℕ → ℕ → List ℚ
  | _, 0 => []
  | i, n + 1 => h.binLowEdge i :: readEdges h (i + 1) n

/-- Embedding of the `binning` computation in the `Multijet` constructor
(Multijet.cpp, lines 85-89):
`bin.binning.resize(bin.ptLead->GetNbinsX() + 1);` followed by
`for (int i = 1; i <= bin.ptLead->GetNbinsX() + 1; ++i)
   bin.binning.emplace_back(bin.ptLead->GetBinLowEdge(i));`
`std::vector<double>::resize` value-initialises the new elements to 0, and
`emplace_back` then appends after them. -/
def triggerBinBinning (ptLead : Hist1) : List ℚ :=
  List.replicate (ptLead.nbinsx + 1) 0 ++ readEdges ptLead 1 (ptLead.nbinsx + 1)

/-- The per-trigger-bin inputs read by the embedded parts of the `Multijet`
constructor: the leading-jet pt histogram in data and the balance profile in
simulation (only their binnings matter here). -/
structure TriggerBinInput where
  ptLead : Hist1
  simBalProfile : Hist1
deriving DecidableEq, Repr

/-- The fields of `Multijet` relevant to the embedded claims. -/
structure MultijetState where
  binnings : List (List ℚ)
  dimensionality : ℕ
deriving DecidableEq, Repr

/-- Embedding of the `Multijet` constructor computations
(Multijet.cpp, lines 82-113): per trigger bin the `binning` field is filled
from the `ptLead` histogram, and the dimensionality is accumulated as
`dimensionality = 0; for (bin : triggerBins) dimensionality += bin.simBalProfile->GetNbinsX();`. -/
def mkMultijet (bins : List TriggerBinInput) : MultijetState :=
  { binnings := bins.map (fun b => triggerBinBinning b.ptLead)
    dimensionality := bins.foldl (fun acc b => acc + b.simBalProfile.nbinsx) 0 }

/-- Embedding of `Multijet::GetDim` (Multijet.cpp, lines 116-119). -/
def multijetGetDim (m : MultijetState) : ℕ := m.dimensionality

/-! ### L3Corr (src/Analysis/MultijetFOM.cpp) -/

/-- Embedding of `enum class L3Corr::Type` (src/Analysis/MultijetFOM.hpp,
lines 22-27), documented there as the supported functional forms. -/
inductive L3FormType
  | linear
  | loglinear
  | polynomial
deriving DecidableEq, Repr

/-- The members of `L3Corr` that `SetType` touches: the selected form and the
polynomial degree.  The member function pointer `func` is determined by
`type` and is represented through `l3Eval` below. -/
structure L3State where
  type : L3FormType
  degree : ℕ
deriving DecidableEq, Repr

/-- Embedding of `L3Corr::SetType` (MultijetFOM.cpp, lines 37-57): the
switch installs the linear form (also setting `degree = 1`) and the
log-linear form; every other tag, including `Type::Polynomial`, falls into
the `default` branch, which throws `std::runtime_error` (modelled as
`none`). -/
def setType (s : L3State) (t : L3FormType) : Option L3State :=
  match t with
  | .linear => some { type := t, degree := 1 }
  | .loglinear => some { type := t, degree := s.degree }
  | .polynomial => none

/-- The reference momentum of `L3Corr`, fixed to 1000 by the constructor
(MultijetFOM.cpp, lines 4-9: `refPt(1000.)`). -/
noncomputable def l3RefPt : ℝ := 1000

/-- Embedding of `L3Corr::Linear` (MultijetFOM.cpp, lines 60-63). -/
noncomputable def l3Linear (pars : ℕ → ℝ) (pt : ℝ) : ℝ :=
  1 + pars 0 * (pt - l3RefPt)

/-- Embedding of `L3Corr::LogLinear` (MultijetFOM.cpp, lines 66-69). -/
noncomputable def l3LogLinear (pars : ℕ → ℝ) (pt : ℝ) : ℝ :=
  1 + pars 0 * Real.log (pt / l3RefPt)

/-- Embedding of the loop of `L3Corr::Polynomial` (MultijetFOM.cpp,
lines 72-85): iteration `i` first updates `xn` to `xn * x` and then adds
`pars i * xn` to the running sum. -/
noncomputable def polyIter (pars : ℕ → ℝ) (x : ℝ) : ℕ → ℕ → ℝ → ℝ → ℝ
  | 0, _, _, sum => sum
  | n + 1, i, xn, sum => polyIter pars x n (i + 1) (xn * x) (sum + pars i * (xn * x))

/-- Embedding of `L3Corr::Polynomial` (MultijetFOM.cpp, lines 72-85). -/
noncomputable def l3Poly (degree : ℕ) (pars : ℕ → ℝ) (pt : ℝ) : ℝ :=
  polyIter pars (pt - l3RefPt) degree 0 1 1

/-- Evaluation of the correction for a given functional form, dispatching to
the three member functions of `L3Corr` (the role of the member pointer
`func` in `L3Corr::operator()`). -/
noncomputable def l3Eval (t : L3FormType) (degree : ℕ) (pars : ℕ → ℝ) (pt : ℝ) : ℝ :=
  match t with
  | .linear => l3Linear pars pt
  | .loglinear => l3LogLinear pars pt
  | .polynomial => l3Poly degree pars pt

/-! ### Helper lemmas -/

/-- Folding addition of mapped values over a list equals the initial value
plus the sum of the mapped list. -/
theorem foldl_add_map_eq_sum (f : TriggerBinInput → ℕ) :
    ∀ (l : List TriggerBinInput) (a : ℕ),
      List.foldl (fun acc b => acc + f b) a l = a + (l.map f).sum := by
  intro l
  induction l with
  | nil => intro a; simp
  | cons b rest ih =>
      intro a
      simp only [List.foldl_cons, List.map_cons, List.sum_cons, ih]
      omega

/-- Indexing a nonempty list at position 0 gives its head. -/
theorem elemD_zero_eq_head :
    ∀ (l : List ℚ) (h : l ≠ []), elemD l 0 0 = l.head h := by
  intro l h
  cases l with
  | nil => exact absurd rfl h
  | cons a rest => rfl

/-- Indexing a nonempty list at position `length - 1` gives its last
element. -/
theorem elemD_length_sub_one_eq_getLast :
    ∀ (l : List ℚ) (h : l ≠ []), elemD l (l.length - 1) 0 = l.getLast h := by
  intro l
  induction l with
  | nil => intro h; exact absurd rfl h
  | cons a rest ih =>
      intro _
      cases rest with
      | nil => rfl
      | cons b rest2 =>
          simpa [elemD, List.getLast] using ih (by simp)

/-- The polynomial loop with `x = 0` leaves the running sum unchanged. -/
theorem polyIter_x_zero (pars : ℕ → ℝ) :
    ∀ (n i : ℕ) (xn sum : ℝ), polyIter pars 0 n i xn sum = sum := by
  intro n
  induction n with
  | zero => intro i xn sum; rfl
  | succ m ih =>
      intro i xn sum
      rw [polyIter, ih]
      ring

/-- The explicit absolute value used by the embedding agrees with the
lattice absolute value on the rationals. -/
theorem ratAbs_eq_abs (x : ℚ) : ratAbs x = |x| := by
  unfold ratAbs
  rcases lt_or_le x 0 with h | h
  · rw [if_pos h, abs_of_neg h]
  · rw [if_neg (not_lt.mpr h), abs_of_nonneg h]

/-- If the `UndoCorr` loop returns a value, that value reproduces the input
momentum within the relative tolerance: the loop only breaks (FitBase.cpp,
lines 51-52) when the convergence test on the candidate it returns holds. -/
theorem undoCorrLoop_ok_tolerance (ev : ℚ → ℚ) (pt tolerance : ℚ) :
    ∀ (fuel iter : ℕ) (u0 u : ℚ),
      undoCorrLoop ev pt tolerance fuel iter u0 = .ok u →
      ratAbs (u * ev u / pt - 1) < tolerance := by
  intro fuel
  induction fuel with
  | zero =>
      intro iter u0 u h
      exact absurd h (by simp [undoCorrLoop])
  | succ n ih =>
      intro iter u0 u h
      rw [undoCorrLoop] at h
      by_cases hc : ratAbs (u0 * ev u0 / pt - 1) < tolerance
      · rw [if_pos hc] at h
        cases h
        exact hc
      · rw [if_neg hc] at h
        by_cases hi : iter = 100
        · rw [if_pos hi] at h
          exact absurd h (by simp)
        · rw [if_neg hi] at h
          exact ih iter (pt / ev u0) u h

/-- One step of the embedded `UndoCorr` loop for the correction
`ev = fun x => x` at `pt = 4`, from the state `ptUncorr = 1`: the
convergence test fails and the state becomes `4`. -/
theorem undoCorrLoop_id_step_one (n : ℕ) :
    undoCorrLoop (fun x => x) 4 undoCorrDefaultTolerance (n + 1) 0 1 =
      undoCorrLoop (fun x => x) 4 undoCorrDefaultTolerance n 0 4 := by
  norm_num [undoCorrLoop, ratAbs, undoCorrDefaultTolerance]

/-- One step of the embedded `UndoCorr` loop for the correction
`ev = fun x => x` at `pt = 4`, from the state `ptUncorr = 4`: the
convergence test fails and the state becomes `1`. -/
theorem undoCorrLoop_id_step_four (n : ℕ) :
    undoCorrLoop (fun x => x) 4 undoCorrDefaultTolerance (n + 1) 0 4 =
      undoCorrLoop (fun x => x) 4 undoCorrDefaultTolerance n 0 1 := by
  norm_num [undoCorrLoop, ratAbs, undoCorrDefaultTolerance]

/-- For the correction `ev = fun x => x` and `pt = 4`, the embedded
`UndoCorr` loop oscillates between the states 1 and 4 for ever: whatever
fuel is granted, the loop is still running. -/
theorem undoCorrLoop_id_running :
    ∀ (fuel : ℕ) (u : ℚ), u = 1 ∨ u = 4 →
      undoCorrLoop (fun x => x) 4 undoCorrDefaultTolerance fuel 0 u = .running := by
  intro fuel
  induction fuel with
  | zero => intro u _; rfl
  | succ n ih =>
      intro u hu
      rcases hu with h | h
      · rw [h, undoCorrLoop_id_step_one]
        exact ih 4 (Or.inr rfl)
      · rw [h, undoCorrLoop_id_step_four]
        exact ih 1 (Or.inl rfl)

/-- The scroll loop of `Multijet::MapBinning` never advances from the
initial state `curSrcBin = unsigned(-1)`: its guard
`curSrcBin < source.size() - 1` is an unsigned comparison that is false at
`UINT_MAX` for any realistic source size, so the loop body is dead code and
every edge of the target binning stays matched to the underflow sentinel. -/
theorem scroll_stuck_at_UINT_MAX (source : List ℚ) (x : ℚ)
    (hlen : source.length ≤ 4294967295) :
    ∀ fuel : ℕ, scroll source x fuel UINT_MAX = UINT_MAX := by
  intro fuel
  cases fuel with
  | zero => rfl
  | succ n =>
      rw [scroll, if_neg]
      intro hc
      have h1 : UINT_MAX < source.length - 1 := hc.1
      rw [UINT_MAX] at h1
      omega

/-- Evaluation of the embedded `UndoCorr` at a simple converging instance:
the constant correction 1 at `pt = 1` with tolerance 1, which returns the
seed immediately. -/
theorem undoCorr_const_one_eval :
    undoCorr (fun _ => (1 : ℚ)) 1 1 1 = .ok 1 := by
  simp [undoCorr, undoCorrLoop, ratAbs]

/-! ### Claim theorems -/

/-- Claim C1, counterexample: a loss evaluator constructed from one trigger
bin whose simulation profile has 3 bins has `GetDim() = 3`, while a
correction model with a single parameter (as used by the fit program, which
constructs its `JetCorr` with `JetCorrBase(1)`) has `GetNumParams() = 1`;
the two disagree, so `GetDim()` is not the number of parameters of the
correction model. -/
theorem multijetGetDim_ne_corr_numParams :
    multijetGetDim (mkMultijet [⟨⟨[100, 200]⟩, ⟨[100, 130, 160, 200]⟩⟩]) = 3 ∧
    getNumParams (jetCorrInit 1) = 1 ∧
    multijetGetDim (mkMultijet [⟨⟨[100, 200]⟩, ⟨[100, 130, 160, 200]⟩⟩]) ≠
      getNumParams (jetCorrInit 1) := by
  decide

/-- Claim C1, amended: `GetDim()` returns the dimensionality computed by the
constructor, namely the total number of bins of the simulation balance
profiles summed over all trigger bins (the number of chi-square terms); it
does not depend on any correction model. -/
theorem multijetGetDim_eq_sum_sim_bins (bins : List TriggerBinInput) :
    multijetGetDim (mkMultijet bins) =
      (bins.map (fun b => b.simBalProfile.nbinsx)).sum := by
  unfold multijetGetDim mkMultijet
  simpa using foldl_add_map_eq_sum (fun b => b.simBalProfile.nbinsx) bins 0

/-- Claim C2: refuted on the code.  The iteration counter of
`JetCorrBase::UndoCorr` is never incremented, so the `iter == maxIter` check
can never fire; for a correction on which the fixed-point iteration does not
converge (here `Eval(pt) = pt` at `pt = 4`, which oscillates between 1 and
4) the loop never raises the convergence error and never terminates,
whatever iteration budget is modelled. -/
theorem undoCorr_nonconvergent_never_errors :
    ∀ fuel : ℕ, undoCorr (fun x => x) 4 undoCorrDefaultTolerance fuel = .running := by
  intro fuel
  unfold undoCorr
  rw [show ((4 : ℚ) / (fun x : ℚ => x) 4) = 1 by norm_num]
  exact undoCorrLoop_id_running fuel 1 (Or.inl rfl)

/-- Claim C3: refuted on the code.  With fine partition `[0, 10, 20, 30]`
and coarse partition `[5, 25]` (both sorted, coarse range inside fine
range), the fine bin `[10, 20]` (ROOT index 2) lies entirely inside the
coarse value range `[5, 25]`, yet the sum of its inclusion fractions over
all interior coarse-bin ranges of the returned BinMap is 0, not 1: the
scroll loop of `MapBinning` never advances (unsigned wrap-around), so every
interior range is empty. -/
theorem mapBinning_interior_coverage_zero :
    (5 : ℚ) ≤ 10 ∧ (20 : ℚ) ≤ 25 ∧
    (mapBinning [0, 10, 20, 30] [5, 25]).map (fun m => interiorCoverage m 2) =
      some 0 := by
  norm_num [mapBinning, mapBinningCore, matchEdges, scroll, buildBoundaries,
    binMapFrom, snapTolerance, u32, UINT_MAX, elemD, lastD, interiorCoverage,
    coverFrom, fracInRange]

/-- Claim C4: refuted on the code.  For a leading-pt histogram with edges
`[30, 40, 50]` (2 bins), the constructor stores as `binning` the list
`[0, 0, 0, 30, 40, 50]` - the `resize` call prepends `Nfine + 1` zeros
before the loop appends the `Nfine + 1` edges - instead of the edge list
`[30, 40, 50]` itself. -/
theorem triggerBinBinning_resize_bug :
    triggerBinBinning ⟨[30, 40, 50]⟩ = [0, 0, 0, 30, 40, 50] ∧
    triggerBinBinning ⟨[30, 40, 50]⟩ ≠ [30, 40, 50] := by
  refine ⟨?_, ?_⟩ <;>
    norm_num [triggerBinBinning, readEdges, Hist1.nbinsx, Hist1.binLowEdge,
      elemD, List.replicate]

/-- Claim C5: if the embedded `UndoCorr` returns a value `u` (rather than
failing or running on), then `u` reproduces the corrected momentum within
the relative tolerance: `|u * Eval(u) / pt - 1| < tolerance`. -/
theorem undoCorr_result_within_tolerance (ev : ℚ → ℚ) (pt tolerance : ℚ)
    (fuel : ℕ) (u : ℚ) (h : undoCorr ev pt tolerance fuel = .ok u) :
    |u * ev u / pt - 1| < tolerance := by
  rw [← ratAbs_eq_abs]
  unfold undoCorr at h
  exact undoCorrLoop_ok_tolerance ev pt tolerance fuel 0 (pt / ev pt) u h

/-- Claim C5, witness: for the constant correction 1 at `pt = 1` the
embedded `UndoCorr` returns 1, and indeed `|1 * 1 / 1 - 1| < 1`. -/
theorem undoCorr_result_within_tolerance_witness :
    |(1 : ℚ) * 1 / 1 - 1| < 1 :=
  undoCorr_result_within_tolerance (fun _ => 1) 1 1 1 1 undoCorr_const_one_eval

/-- Claim C6: refuted on the code.  `L3Corr::SetType` installs the linear
form (setting the degree to 1) and the log-linear form, but the tag
`Type::Polynomial` falls into the `default` branch of the switch and raises
the configuration error, even though the header documents it as a supported
functional form and `L3Corr::Polynomial` is implemented. -/
theorem setType_polynomial_rejected :
    setType ⟨.linear, 1⟩ .linear = some ⟨.linear, 1⟩ ∧
    setType ⟨.linear, 1⟩ .loglinear = some ⟨.loglinear, 1⟩ ∧
    setType ⟨.linear, 1⟩ .polynomial = none := by
  decide

/-- Claim C7: `MapBinning` raises the out-of-range error exactly when the
first edge of the target (coarse) binning is below the first edge of the
source (fine) binning or the last target edge is above the last source
edge; otherwise the error is not raised and a bin map is returned. -/
theorem mapBinning_out_of_range_iff (source target : List ℚ)
    (hs : source ≠ []) (ht : target ≠ []) :
    mapBinning source target = none ↔
      (target.head ht < source.head hs ∨ target.getLast ht > source.getLast hs) := by
  unfold mapBinning
  rw [elemD_zero_eq_head target ht, elemD_zero_eq_head source hs,
    elemD_length_sub_one_eq_getLast target ht,
    elemD_length_sub_one_eq_getLast source hs]
  split <;> simp_all

/-- Claim C7, witness: for the concrete partitions `[0, 10, 20, 30]`
(source) and `[-1, 2]` (target), whose first target edge lies below the
first source edge, the embedded `MapBinning` raises the out-of-range
error. -/
theorem mapBinning_out_of_range_iff_witness :
    mapBinning [0, 10, 20, 30] [-1, 2] = none :=
  (mapBinning_out_of_range_iff [0, 10, 20, 30] [-1, 2] (by decide) (by decide)).mpr
    (Or.inl (by decide))

/-- Claim C8: refuted on the code.  The coarse bin `[12, 13]` lies entirely
within the single fine bin `[10, 20]` of the partition `[0, 10, 20, 30]`
(ROOT index 2), but the emitted BinMap range for it has start index 1 and
end index 0 with end fraction 1: the indices are not equal and the end
fraction is not forced to 0 (again a consequence of the dead scroll
loop). -/
theorem mapBinning_single_bin_collapse_violated :
    (10 : ℚ) ≤ 12 ∧ (13 : ℚ) ≤ 20 ∧
    (mapBinning [0, 10, 20, 30] [12, 13]).map (fun m => elemD m 1 default) =
      some (⟨1, 1⟩, ⟨0, 1⟩) := by
  norm_num [mapBinning, mapBinningCore, matchEdges, scroll, buildBoundaries,
    binMapFrom, snapTolerance, u32, UINT_MAX, elemD, lastD]

/-- Claim C9: for every functional form of `L3Corr` (linear, log-linear,
polynomial of any degree) and every parameter vector, the correction
evaluates to exactly 1 at the reference momentum `refPt = 1000`. -/
theorem l3Eval_at_refPt_eq_one (t : L3FormType) (degree : ℕ) (pars : ℕ → ℝ) :
    l3Eval t degree pars l3RefPt = 1 := by
  cases t with
  | linear => simp [l3Eval, l3Linear]
  | loglinear => norm_num [l3Eval, l3LogLinear, l3RefPt, Real.log_one]
  | polynomial =>
      simp only [l3Eval, l3Poly, sub_self]
      exact polyIter_x_zero pars degree 0 1 1

/-- Claim C10: `JetCorrBase::SetParams` fails exactly when the new parameter
vector has a different length than the stored one (the source throws before
any assignment, so the stored vector is unchanged in that case, which the
`Option` model reflects); on success the stored vector becomes exactly the
new one and the number of parameters is unchanged. -/
theorem setParams_ok_iff_lengths_match (parameters newParams : List ℚ) :
    (setParams parameters newParams = none ↔
      newParams.length ≠ parameters.length) ∧
    (∀ r : List ℚ, setParams parameters newParams = some r →
      r = newParams ∧ getNumParams r = getNumParams parameters) := by
  by_cases h : parameters.length = newParams.length
  · rw [setParams, if_neg (fun hn => hn h)]
    refine ⟨iff_of_false (by simp) (fun hne => hne h.symm), ?_⟩
    intro r hr
    injection hr with hr2
    subst hr2
    exact ⟨rfl, h.symm⟩
  · rw [setParams, if_pos h]
    refine ⟨iff_of_true rfl (Ne.symm h), ?_⟩
    intro r hr
    exact absurd hr (by simp)

/-- Claim C10, witness: applying `SetParams` with a stored vector of length
2 and a new vector of length 2 succeeds, stores exactly the new vector and
keeps the parameter count. -/
theorem setParams_ok_iff_lengths_match_witness :
    ([1, 2] : List ℚ) = [1, 2] ∧
      getNumParams [(1 : ℚ), 2] = getNumParams [(0 : ℚ), 0] :=
  (setParams_ok_iff_lengths_match [0, 0] [1, 2]).2 [1, 2] (by decide)

end MultijetJEC
